import Mathlib

/-!
Shallow embedding of the poker-player decision engine of this repository.

The repository holds several TypeScript variants of the same player:
* `src/src/Player.ts` (first class, called variant A below): `betRequest`,
  `preFlopStrategy`, `postFlopStrategy`, `trackOpponentBehavior`,
  `opponentBasedStrategy`, and a module-level `evaluateHand` returning the
  fixed band values 10..100;
* `src/src/Player.ts` (second class, variant B) and `src/src/Player2.ts`:
  regret-tracking `updateRegret` over `{fold, call, raise}` counters;
* `src/unnamed/part_000` and `src/unnamed/part_001`: a `betRequest` with
  numeric thresholds and a module-level `evaluateHand` returning banded
  scores (800+x straight flush, 700+x quads, 600+..., down to high card);
* `src/unnamed/part_002`: same evaluator as variant A with an aggressive
  pre-flop strategy.

JS numbers are modelled as `Int`/`Nat`; the two non-integer values the
evaluator of part_000 can produce (`NaN` from `600 + x*10 + undefined` when a
full-house branch finds no pair key, `-Infinity` from `Math.max()` of an empty
spread) are modelled by a dedicated `Score` type.  JS float division appears
only in `calculatePotOdds`, modelled exactly over `ℚ`.
-/

/-- Card suits, the four-element union type `'clubs' | 'spades' | 'hearts' | 'diamonds'`. -/
inductive Suit
  | clubs
  | spades
  | hearts
  | diamonds
deriving DecidableEq, BEq, Repr, Fintype

/-- Card ranks.  The source stores ranks as strings whose documented domain is
`"2"-"10", "J", "Q", "K", "A"` (comment on the `Card` type in every variant);
we model that domain as an enumeration. -/
inductive Rank
  | r2
  | r3
  | r4
  | r5
  | r6
  | r7
  | r8
  | r9
  | r10
  | rJ
  | rQ
  | rK
  | rA
deriving DecidableEq, BEq, Repr, Fintype

/-- The `Card` record of every variant. -/
structure Card where
  rank : Rank
  suit : Suit
deriving DecidableEq, BEq, Repr

/-- The `PlayerData` record, restricted to the fields the decision paths read
(`name`, `status`, `version` are only used by the display-only `showdown`).
`hole_cards` is optional, as in the source (`hole_cards?: Card[]`). -/
structure PlayerData where
  id : Int
  stack : Int
  bet : Int
  hole_cards : Option (List Card)
deriving DecidableEq, BEq, Repr

/-- The `GameState` snapshot, restricted to the fields `betRequest` reads. -/
structure GameState where
  current_buy_in : Int
  minimum_raise : Int
  pot : Int
  in_action : Nat
  players : List PlayerData
  community_cards : List Card
deriving Repr

/-- Numeric value of a rank, the `rankValues` table / `getRankValue` switch
(`'2' ↦ 2, …, '10' ↦ 10, 'J' ↦ 11, 'Q' ↦ 12, 'K' ↦ 13, 'A' ↦ 14`). -/
def rankValue : Rank → Nat
  | .r2 => 2
  | .r3 => 3
  | .r4 => 4
  | .r5 => 5
  | .r6 => 6
  | .r7 => 7
  | .r8 => 8
  | .r9 => 9
  | .r10 => 10
  | .rJ => 11
  | .rQ => 12
  | .rK => 13
  | .rA => 14

/-- Ascending insertion, building block for `sort((a, b) => a - b)`. -/
def insertAsc (a : Nat) : List Nat → List Nat
  | [] => [a]
  | b :: l => if a ≤ b then a :: b :: l else b :: insertAsc a l

/-- JS `Array.prototype.sort((a, b) => a - b)`: ascending numeric sort. -/
def sortAsc : List Nat → List Nat
  | [] => []
  | a :: l => insertAsc a (sortAsc l)

/-- Descending insertion, building block for `sort((a, b) => b - a)`. -/
def insertDesc (a : Nat) : List Nat → List Nat
  | [] => [a]
  | b :: l => if b ≤ a then a :: b :: l else b :: insertDesc a l

/-- JS `Array.prototype.sort((a, b) => b - a)`: descending numeric sort. -/
def sortDesc : List Nat → List Nat
  | [] => []
  | a :: l => insertDesc a (sortDesc l)

/-- Helper for `mapKeys`: keeps the elements not yet seen, in order. -/
def keysAux {α : Type} [DecidableEq α] (seen : List α) : List α → List α
  | [] => []
  | a :: l => if a ∈ seen then keysAux seen l else a :: keysAux (a :: seen) l

/-- Distinct elements of a list in first-occurrence order: the key sequence of
a JS `Map` / `Set` / plain object built by one insertion per element
(`Array.from(rankCount.keys())`, `Array.from(new Set(xs))`, `Object.keys`). -/
def mapKeys {α : Type} [DecidableEq α] (l : List α) : List α := keysAux [] l

/-- Result type of the part_000 / part_001 evaluator.  `val n` is an ordinary
number; `nan` models the JS `NaN` produced by `600 + x*10 + undefined` when
`getKeyByValue(rankCount, 2)` finds no pair in the full-house branch; `negInf`
models `-Infinity` from `Math.max()` of an empty array. -/
inductive Score
  | nan
  | negInf
  | val (n : Nat)
deriving DecidableEq, BEq, Repr

/-- Adding a constant to a JS number: `k + NaN = NaN`, `k + (-Infinity) = -Infinity`. -/
def Score.addConst (k : Nat) : Score → Score
  | .nan => .nan
  | .negInf => .negInf
  | .val n => .val (k + n)

/-- JS comparison `s >= t` for a nonnegative threshold:
false when `s` is `NaN` or `-Infinity`. -/
def Score.geN (s : Score) (t : Nat) : Bool :=
  match s with
  | .val n => t ≤ n
  | _ => false

/-- JS comparison `s > t` for a nonnegative threshold:
false when `s` is `NaN` or `-Infinity`. -/
def Score.gtN (s : Score) (t : Nat) : Bool :=
  match s with
  | .val n => t < n
  | _ => false

/-- JS `Math.max(...xs)`: `-Infinity` on the empty spread. -/
def jsMaxN : List Nat → Score
  | [] => .negInf
  | a :: l => .val (l.foldl Nat.max a)

/-- One window test of the descending straight scan of part_000 / part_001:
`uniqueRanks[i] = uniqueRanks[i-1] + 1 ∧ … ∧ uniqueRanks[i-3] = uniqueRanks[i-4] + 1`.
Only called with `4 ≤ i < length`. -/
def runAt (u : List Nat) (i : Nat) : Bool :=
  u.getD i 0 == u.getD (i - 1) 0 + 1 &&
  u.getD (i - 1) 0 == u.getD (i - 2) 0 + 1 &&
  u.getD (i - 2) 0 == u.getD (i - 3) 0 + 1 &&
  u.getD (i - 3) 0 == u.getD (i - 4) 0 + 1

/-- The loop `for (i = uniqueRanks.length - 1; i >= 4; i--)` of `isStraight`
in part_000 / part_001: scan downward for five consecutive ordinals, returning
the high ordinal `uniqueRanks[i]` of the first window found, else 0. -/
def scanDown (u : List Nat) : Nat → Nat
  | 0 => 0
  | i + 1 =>
    if i + 1 < 4 then 0
    else if runAt u (i + 1) then u.getD (i + 1) 0
    else scanDown u i

/-- The `isStraight` closure of part_000 / part_001: deduplicate the sorted
rank values (a JS `Set` keeps first-occurrence order, hence ascending here),
scan descending for five consecutive ordinals, then special-case the wheel
`A-2-3-4-5` (value 5); 0 means no straight.  A found window high is ≥ 6, so it
is never confused with the 0 sentinel. -/
def isStraight_p0 (sorted : List Nat) : Nat :=
  let u := mapKeys sorted
  let scanned := scanDown u (u.length - 1)
  if scanned != 0 then scanned
  else if u.contains 14 && u.contains 2 && u.contains 3 && u.contains 4 && u.contains 5 then 5
  else 0

/-- The `isFlush` closure of part_000 / part_001: some suit count ≥ 5, where
`suitCount` is a plain object keyed by suit. -/
def isFlush_p0 (suits : List Suit) : Bool :=
  (mapKeys suits).any (fun s => 5 ≤ suits.count s)

/-- The `evaluateHand` of part_000 (identical in part_001): banded scores
800/700/600/500/400/300/200/100 plus rank tie-breaks, high card as the bare
maximum ordinal.  `getKeyByValue` is `find?` over keys in insertion order; the
non-null assertions on its result are modelled by `.nan` on the `none` branch
(in JS `rankValues[undefined]` is `undefined` and the sum is `NaN`). -/
def evaluateHand_p0 (holeCards communityCards : List Card) : Score :=
  let allCards := holeCards ++ communityCards
  let ranks := allCards.map Card.rank
  let suits := allCards.map Card.suit
  let sorted := sortAsc (ranks.map rankValue)
  let flush := isFlush_p0 suits
  let straightHighCard := isStraight_p0 sorted
  let keys := mapKeys ranks
  let counts := sortDesc (keys.map (fun r => ranks.count r))
  if flush && decide (10 ≤ straightHighCard) then .val (800 + straightHighCard)
  else if counts.getD 0 0 == 4 then
    match keys.find? (fun r => ranks.count r == 4) with
    | some r => .val (700 + rankValue r)
    | none => .nan
  else if counts.getD 0 0 == 3 && decide (2 ≤ counts.getD 1 0) then
    match keys.find? (fun r => ranks.count r == 3), keys.find? (fun r => ranks.count r == 2) with
    | some t, some p => .val (600 + rankValue t * 10 + rankValue p)
    | _, _ => .nan
  else if flush then Score.addConst 500 (jsMaxN sorted)
  else if 0 < straightHighCard then .val (400 + straightHighCard)
  else if counts.getD 0 0 == 3 then
    match keys.find? (fun r => ranks.count r == 3) with
    | some t => .val (300 + rankValue t)
    | none => .nan
  else if counts.getD 0 0 == 2 && counts.getD 1 0 == 2 then
    match (keys.filter (fun r => ranks.count r == 2)).map rankValue with
    | [] => .nan
    | v :: vs => .val (200 + (vs.foldl Nat.max v) * 10 + (vs.foldl Nat.min v))
  else if counts.getD 0 0 == 2 then
    match keys.find? (fun r => ranks.count r == 2) with
    | some p => .val (100 + rankValue p)
    | none => .nan
  else jsMaxN sorted

/-- The `betRequest` of part_000.  The guard `if (!player.hole_cards) betCallback(0);`
has no `return`, so control falls through: the 0 from the guard and the amount
from the threshold branches are both committed.  The result is the sequence of
amounts passed to `betCallback`, or `none` when `players[in_action]` is out of
range (accessing `.bet` of `undefined` throws in JS).  The raise branch commits
`Math.min(current_buy_in + minimum_raise, player.stack)`; the call branch
commits `callAmount` clamped to `player.stack`. -/
def betRequest_p0 (state : GameState) : Option (List Int) :=
  match state.players.get? state.in_action with
  | none => none
  | some player =>
    let guardAmounts : List Int := if player.hole_cards = none then [0] else []
    let handStrength := evaluateHand_p0 (player.hole_cards.getD []) state.community_cards
    let callAmount : Int := state.current_buy_in - player.bet
    let amount : Int :=
      if handStrength.geN 700 then min (state.current_buy_in + state.minimum_raise) player.stack
      else if handStrength.geN 300 then (if callAmount ≤ player.stack then callAmount else player.stack)
      else 0
    some (guardAmounts ++ [amount])

/-- The `betRequest` of part_001: thresholds 50 / 20 (strict), raise amount
`current_buy_in + minimum_raise` with no stack clamp.  `hole_cards` has no
default there, so spreading an absent array throws (`none`). -/
def betRequest_p1 (state : GameState) : Option (List Int) :=
  match state.players.get? state.in_action with
  | none => none
  | some player =>
    match player.hole_cards with
    | none => none
    | some hc =>
      let handStrength := evaluateHand_p0 hc state.community_cards
      let callAmount : Int := state.current_buy_in - player.bet
      some [ if handStrength.gtN 50 then state.current_buy_in + state.minimum_raise
             else if handStrength.gtN 20 then callAmount
             else 0 ]

/-- In `src/src/Player.ts` and `src/unnamed/part_002`, `suitCount` is a JS
`Map`, and the flush test reads `Object.values(suitCount)`.  `Object.values`
enumerates own enumerable properties, which a `Map` does not expose its
entries as, so the call returns the empty array regardless of the entries. -/
def jsObjectValuesOfMap (_entries : List (Suit × Nat)) : List Nat := []

/-- The `checkStraight` of variant A (`src/src/Player.ts`, also part_002):
sort the distinct rank ordinals ascending and look for
`ranks[i + 4] - ranks[i] === 4` with `i` ranging below `length - 4`. -/
def checkStraight_A (keys : List Rank) : Bool :=
  let rs := sortAsc (keys.map rankValue)
  (List.range (rs.length - 4)).any (fun i => rs.getD (i + 4) 0 - rs.getD i 0 == 4)

/-- The module-level `evaluateHand` of `src/src/Player.ts` (identical in
part_002): fixed category constants 10..100.  `isFlush` is
`Object.values(suitCount).some(count => count >= 5)` with `suitCount` a `Map`,
hence always `false` (see `jsObjectValuesOfMap`); `pairs` are ranks with count
exactly 2. -/
def evaluateHand_A (holeCards communityCards : List Card) : Nat :=
  let allCards := holeCards ++ communityCards
  let ranks := allCards.map Card.rank
  let suits := allCards.map Card.suit
  let suitEntries := (mapKeys suits).map (fun s => (s, suits.count s))
  let flush := (jsObjectValuesOfMap suitEntries).any (fun c => 5 ≤ c)
  let keys := mapKeys ranks
  let straight := checkStraight_A keys
  let pairs := keys.filter (fun r => ranks.count r == 2)
  let threeOfAKind := keys.any (fun r => ranks.count r == 3)
  let fourOfAKind := keys.any (fun r => ranks.count r == 4)
  if straight && flush && keys.contains Rank.rA && keys.contains Rank.rK then 100
  else if straight && flush then 90
  else if fourOfAKind then 80
  else if threeOfAKind && decide (0 < pairs.length) then 70
  else if flush then 60
  else if straight then 50
  else if threeOfAKind then 40
  else if 1 < pairs.length then 30
  else if pairs.length == 1 then 20
  else 10

/-- The `preFlopStrategy` of variant A: raise `callAmount + 2 * minimum_raise`
above strength 70, call above 40, fold otherwise (the `position` argument is
unused by the function body). -/
def preFlopStrategy (handStrength callAmount minimum_raise : Int) : Int :=
  if 70 < handStrength then callAmount + minimum_raise * 2
  else if 40 < handStrength then callAmount
  else 0

/-- The `calculatePotOdds` of variant A: `pot > 0 ? callAmount / (pot + callAmount) : 0`,
with the JS float division modelled exactly over `ℚ`.  The one JS edge where the
denominator is 0 (`callAmount = -pot` with `pot > 0`) yields `-Infinity < 0.5`
in JS and `0 < 0.5` under the rational convention: the same comparison verdict
at the only place the value is consumed. -/
def calculatePotOdds (callAmount pot : Int) : ℚ :=
  if 0 < pot then (callAmount : ℚ) / ((pot : ℚ) + (callAmount : ℚ)) else 0

/-- The `evaluateBluffOpportunity` of variant A: hand strength below 40 and
pot odds below 0.5. -/
def evaluateBluffOpportunity (handStrength : Int) (potOdds : ℚ) : Bool :=
  decide (handStrength < 40) && decide (potOdds < (1 : ℚ) / 2)

/-- The `postFlopStrategy` of variant A: raise `+2·minimum_raise` above 80,
`+minimum_raise` above 50, bluff `+minimum_raise` above 20 when
`evaluateBluffOpportunity` holds, fold otherwise. -/
def postFlopStrategy (handStrength callAmount minimum_raise pot : Int) : Int :=
  let potOdds := calculatePotOdds callAmount pot
  let bluffOpportunity := evaluateBluffOpportunity handStrength potOdds
  if 80 < handStrength then callAmount + minimum_raise * 2
  else if 50 < handStrength then callAmount + minimum_raise
  else if decide (20 < handStrength) && bluffOpportunity then callAmount + minimum_raise
  else 0

/-- The `opponentAggression` object: an association list from opponent id to
counter, in key-insertion order (JS object keys are unique). -/
abbrev AggrMap := List (Int × Int)

/-- Property read `aggr[id]`: `none` models `undefined`. -/
def aggrLookup : AggrMap → Int → Option Int
  | [], _ => none
  | e :: m, i => if e.1 = i then some e.2 else aggrLookup m i

/-- Property write `aggr[id] = v`: overwrite the existing key, else append. -/
def aggrSet : AggrMap → Int → Int → AggrMap
  | [], i, v => [(i, v)]
  | e :: m, i, v => if e.1 = i then (i, v) :: m else e :: aggrSet m i v

/-- The tracked counter of an id, with 0 for an id never seen. -/
def aggrVal (m : AggrMap) (i : Int) : Int := (aggrLookup m i).getD 0

/-- One iteration of `trackOpponentBehavior`'s `forEach` (identical in
`src/src/Player.ts` and part_002): `if (!aggr[id]) aggr[id] = 0;` resets the
falsy values (`undefined` and 0) to 0, then `+= 1` when `bet > 0`, `-= 1`
otherwise. -/
def trackSeat (m : AggrMap) (p : PlayerData) : AggrMap :=
  let base : Int :=
    match aggrLookup m p.id with
    | none => 0
    | some v => if v = 0 then 0 else v
  aggrSet m p.id (if 0 < p.bet then base + 1 else base - 1)

/-- The `trackOpponentBehavior` of variant A / part_002: fold `trackSeat`
over the seat list. -/
def trackOpponentBehavior (m : AggrMap) (players : List PlayerData) : AggrMap :=
  players.foldl trackSeat m

/-- The `opponentBasedStrategy` of variant A: count opponents with counter
above 3 and below -3 over the tracked map, then pick one more amount.  The
equal-counts branch coincides with the aggressive-majority branch in the
source, both repeated here verbatim. -/
def opponentBasedStrategy (m : AggrMap) (handStrength callAmount minimum_raise : Int) : Int :=
  let aggressiveOpponents := m.countP (fun e => decide (3 < e.2))
  let passiveOpponents := m.countP (fun e => decide (e.2 < -3))
  if passiveOpponents < aggressiveOpponents then
    (if 70 < handStrength then callAmount + minimum_raise * 2
     else if 40 < handStrength then callAmount
     else 0)
  else if aggressiveOpponents < passiveOpponents then
    (if 50 < handStrength then callAmount + minimum_raise
     else callAmount)
  else
    (if 70 < handStrength then callAmount + minimum_raise * 2
     else if 40 < handStrength then callAmount
     else 0)

/-- The `betRequest` of variant A (`src/src/Player.ts`, first class): one
amount from the phase strategy, then `trackOpponentBehavior` over all seats,
then a second amount from `opponentBasedStrategy` over the updated map.  The
result pairs the committed amounts, in order, with the updated aggression map;
`none` models the throw on an out-of-range `in_action`. -/
def betRequest_A (m : AggrMap) (state : GameState) : Option (List Int × AggrMap) :=
  match state.players.get? state.in_action with
  | none => none
  | some player =>
    let callAmount : Int := state.current_buy_in - player.bet
    let handStrength : Int := evaluateHand_A (player.hole_cards.getD []) state.community_cards
    let firstAmount :=
      if state.community_cards.length = 0
      then preFlopStrategy handStrength callAmount state.minimum_raise
      else postFlopStrategy handStrength callAmount state.minimum_raise state.pot
    let tracked := trackOpponentBehavior m state.players
    let secondAmount := opponentBasedStrategy tracked handStrength callAmount state.minimum_raise
    some ([firstAmount, secondAmount], tracked)

/-- The `regretValues` record of variant B (`src/src/Player.ts`, second class)
and `src/src/Player2.ts`. -/
structure RegretState where
  fold : Int
  call : Int
  raise : Int
deriving DecidableEq, Repr

/-- The field initializer `{ fold: 0, call: 0, raise: 0 }`. -/
def initRegret : RegretState := ⟨0, 0, 0⟩

/-- The `updateRegret` of variant B and Player2.ts: a raise or call adds
`Math.max(0, amount)` to its counter; every other action string falls to the
`else` branch and adds 1 to `fold`. -/
def updateRegret (s : RegretState) (action : String) (amount : Int) : RegretState :=
  if action = "raise" then { s with raise := s.raise + max 0 amount }
  else if action = "call" then { s with call := s.call + max 0 amount }
  else { s with fold := s.fold + 1 }

/-- Running a whole session of `updateRegret` calls from construction. -/
def regretRun (updates : List (String × Int)) : RegretState :=
  updates.foldl (fun s u => updateRegret s u.1 u.2) initRegret

/-- Classification of a committed amount relative to the call amount, in the
order fold < call < raise used by the spec (`amount = 0` signals fold,
`amount = callAmount` call, larger amounts raise). -/
def actionOf (amount callAmount : Int) : Nat :=
  if amount = 0 then 0
  else if amount = callAmount then 1
  else 2

/-- The ace of spades. -/
def aceSpades : Card := ⟨.rA, .spades⟩

/-- The ace of hearts. -/
def aceHearts : Card := ⟨.rA, .hearts⟩

/-- A mixed-suit wheel `A-2-3-4-5`. -/
def wheelHand : List Card :=
  [⟨.rA, .spades⟩, ⟨.r2, .clubs⟩, ⟨.r3, .diamonds⟩, ⟨.r4, .hearts⟩, ⟨.r5, .spades⟩]

/-- Seven hearts with no five consecutive ranks: a 7-card flush. -/
def sevenHearts : List Card :=
  [⟨.r2, .hearts⟩, ⟨.r3, .hearts⟩, ⟨.r5, .hearts⟩, ⟨.r7, .hearts⟩,
   ⟨.r9, .hearts⟩, ⟨.rJ, .hearts⟩, ⟨.rK, .hearts⟩]

/-- Aces full of kings: the highest full house. -/
def fullHouseAAK : List Card :=
  [⟨.rA, .clubs⟩, ⟨.rA, .diamonds⟩, ⟨.rA, .hearts⟩, ⟨.rK, .clubs⟩, ⟨.rK, .diamonds⟩]

/-- Four twos with a seven kicker: the lowest four of a kind. -/
def quadTwos : List Card :=
  [⟨.r2, .clubs⟩, ⟨.r2, .diamonds⟩, ⟨.r2, .hearts⟩, ⟨.r2, .spades⟩, ⟨.r7, .clubs⟩]

/-- The board `K♠ K♥ K♦ 3♣ 9♠` of the spec's post-flop scenario. -/
def kingsBoard : List Card :=
  [⟨.rK, .spades⟩, ⟨.rK, .hearts⟩, ⟨.rK, .diamonds⟩, ⟨.r3, .clubs⟩, ⟨.r9, .spades⟩]

/-- The acting seat of the spec's pre-flop scenario 1: `A♠ A♥`, stack 1000, bet 0. -/
def aaSeat : PlayerData := ⟨1, 1000, 0, some [aceSpades, aceHearts]⟩

/-- The spec's pre-flop scenario 1: hole `A♠ A♥`, no community cards,
`current_buy_in = 20`, `minimum_raise = 20`, own bet 0, stack 1000. -/
def aaState : GameState :=
  { current_buy_in := 20, minimum_raise := 20, pot := 0, in_action := 0,
    players := [aaSeat], community_cards := [] }

/-- A state whose acting seat has no hole cards, on the kings board, with
`current_buy_in = 100` and stack 50. -/
def noHoleState : GameState :=
  { current_buy_in := 100, minimum_raise := 20, pot := 0, in_action := 0,
    players := [⟨1, 50, 0, none⟩], community_cards := kingsBoard }

/-- The acting seat of `quadState`: `K♣ K♦` in hand, stack 120, bet 0. -/
def quadSeat : PlayerData := ⟨1, 120, 0, some [⟨.rK, .clubs⟩, ⟨.rK, .diamonds⟩]⟩

/-- A post-flop state where the acting seat holds four kings but only a stack
of 120, with `current_buy_in = 260` and `minimum_raise = 40`: the computed
post-flop amount `callAmount + minimum_raise = 300` exceeds the stack. -/
def quadState : GameState :=
  { current_buy_in := 260, minimum_raise := 40, pot := 100, in_action := 0,
    players := [quadSeat],
    community_cards := [⟨.rK, .hearts⟩, ⟨.rK, .spades⟩, ⟨.r2, .clubs⟩,
                        ⟨.r3, .diamonds⟩, ⟨.r9, .spades⟩] }

/-- An opponent seat with id 7 betting 10 this round. -/
def bettingSeat7 : PlayerData := ⟨7, 500, 10, none⟩

/-- An opponent seat with id 7 betting nothing this round. -/
def checkingSeat7 : PlayerData := ⟨7, 500, 0, none⟩

/-- Helper for C9: writing a key makes it readable. -/
theorem aggrLookup_set_self (m : AggrMap) (i v : Int) :
    aggrLookup (aggrSet m i v) i = some v := by
  induction m with
  | nil => simp [aggrSet, aggrLookup]
  | cons e m ih =>
    by_cases h : e.1 = i <;> simp [aggrSet, aggrLookup, h, ih]

/-- Helper for C9: writing a key leaves the other keys unchanged. -/
theorem aggrLookup_set_ne (m : AggrMap) (i j v : Int) (h : j ≠ i) :
    aggrLookup (aggrSet m i v) j = aggrLookup m j := by
  have hij : i ≠ j := Ne.symm h
  induction m with
  | nil => simp [aggrSet, aggrLookup, hij]
  | cons e m ih =>
    by_cases he : e.1 = i
    · have hej : e.1 ≠ j := by rw [he]; exact hij
      simp [aggrSet, aggrLookup, he, hej, hij]
    · by_cases hj : e.1 = j <;> simp [aggrSet, aggrLookup, he, hj, ih, h]

/-- Helper for C9: one `trackSeat` observation moves the observed seat's
counter by exactly +1 (betting) or -1 (not betting), counting an untracked id
as 0. -/
theorem trackSeat_val_self (m : AggrMap) (p : PlayerData) :
    aggrVal (trackSeat m p) p.id = aggrVal m p.id + (if 0 < p.bet then 1 else -1) := by
  unfold trackSeat aggrVal
  rcases hl : aggrLookup m p.id with _ | v
  · simp [aggrLookup_set_self, hl]
  · by_cases hv : v = 0 <;> by_cases hb : 0 < p.bet <;>
      simp [aggrLookup_set_self, hl, hv, hb] <;> omega

/-- Helper for C9: a `trackSeat` observation of one seat leaves every other
id's counter unchanged. -/
theorem trackSeat_val_ne (m : AggrMap) (p : PlayerData) (i : Int) (h : p.id ≠ i) :
    aggrVal (trackSeat m p) i = aggrVal m i := by
  unfold trackSeat aggrVal
  rw [aggrLookup_set_ne _ _ _ _ (fun hh => h hh.symm)]

/-- Helper for C9: a round containing no seat with id `i` leaves counter `i`
unchanged. -/
theorem track_round_preserve (r : List PlayerData) (m : AggrMap) (i : Int)
    (h : ∀ p ∈ r, p.id ≠ i) :
    aggrVal (trackOpponentBehavior m r) i = aggrVal m i := by
  induction r generalizing m with
  | nil => rfl
  | cons p r ih =>
    show aggrVal (trackOpponentBehavior (trackSeat m p) r) i = aggrVal m i
    rw [ih _ (fun q hq => h q (List.mem_cons_of_mem _ hq)),
      trackSeat_val_ne _ _ _ (h p (List.mem_cons_self _ _))]

/-- Helper for C9: a round containing exactly one seat with id `i` moves
counter `i` by exactly ±1 according to that seat's bet. -/
theorem track_round_self (r : List PlayerData) (m : AggrMap) (i : Int) (q : PlayerData)
    (h : r.filter (fun p => p.id == i) = [q]) :
    aggrVal (trackOpponentBehavior m r) i = aggrVal m i + (if 0 < q.bet then 1 else -1) := by
  induction r generalizing m with
  | nil => simp at h
  | cons p r ih =>
    rw [List.filter_cons] at h
    by_cases hp : p.id = i
    · rw [if_pos (by simpa using hp)] at h
      obtain ⟨rfl, hrest⟩ : p = q ∧ r.filter (fun x => x.id == i) = [] :=
        ⟨(List.cons_eq_cons.mp h).1, (List.cons_eq_cons.mp h).2⟩
      show aggrVal (trackOpponentBehavior (trackSeat m p) r) i = _
      rw [track_round_preserve r _ i (fun x hx => by
        intro hxi
        have := List.filter_eq_nil_iff.mp hrest x hx
        simp [hxi] at this)]
      rw [← hp, trackSeat_val_self]
    · rw [if_neg (by simpa using hp)] at h
      show aggrVal (trackOpponentBehavior (trackSeat m p) r) i = _
      rw [ih _ h, trackSeat_val_ne _ _ _ hp]

/-- Helper for C9: over a sequence of rounds in which the id `i` always
occurs exactly once and always bets, its counter gains exactly the number of
rounds. -/
theorem track_rounds_aggressive (rounds : List (List PlayerData)) (m : AggrMap) (i : Int)
    (h : ∀ r ∈ rounds, ∃ q, r.filter (fun p => p.id == i) = [q] ∧ 0 < q.bet) :
    aggrVal (rounds.foldl trackOpponentBehavior m) i = aggrVal m i + rounds.length := by
  induction rounds generalizing m with
  | nil => simp
  | cons r rounds ih =>
    obtain ⟨q, hf, hb⟩ := h r (List.mem_cons_self _ _)
    simp only [List.foldl_cons, List.length_cons]
    rw [ih _ (fun r2 h2 => h r2 (List.mem_cons_of_mem _ h2)),
      track_round_self _ _ _ _ hf, if_pos hb]
    push_cast
    ring

/-- C1 (counterexample): the claim says the commit callback is invoked exactly
once per `betRequest`.  At the concrete pre-flop state `aaState`, the
`betRequest` of `src/src/Player.ts` invokes it twice — once from
`preFlopStrategy` and once from `opponentBasedStrategy` — so the invocation
count is 2, not 1. -/
theorem c1_commit_once_counterexample :
    (betRequest_A [] aaState).map (fun r => r.1.length) = some 2
    ∧ (2 : Nat) ≠ 1 := by decide

/-- C1 (amended): for every call of the `betRequest` of `src/src/Player.ts`
that returns (valid `in_action` index), the commit callback is invoked exactly
twice — once by the phase strategy and once by `opponentBasedStrategy` — and
for every call of the `betRequest` of part_000 whose acting seat has hole
cards, it is invoked exactly once.  In neither variant is it ever invoked zero
times. -/
theorem c1_commit_twice_per_betRequest :
    (∀ (m : AggrMap) (st : GameState) (r : List Int × AggrMap),
        betRequest_A m st = some r → r.1.length = 2)
    ∧ (∀ (st : GameState) (p : PlayerData) (r : List Int),
        st.players.get? st.in_action = some p → p.hole_cards ≠ none →
        betRequest_p0 st = some r → r.length = 1) := by
  constructor
  · intro m st r h
    cases hg : st.players.get? st.in_action with
    | none => simp only [betRequest_A, hg] at h; exact Option.noConfusion h
    | some player =>
      simp only [betRequest_A, hg, Option.some.injEq] at h
      subst h
      rfl
  · intro st p r hp hh h
    simp only [betRequest_p0, hp, Option.some.injEq] at h
    rw [if_neg hh] at h
    subst h
    rfl

/-- C1 (witness): the commit-count theorem instantiated at the concrete state
`aaState`, for both variants. -/
theorem c1_commit_twice_per_betRequest_witness :
    ([(0 : Int), 0], ([(1, -1)] : AggrMap)).1.length = 2 ∧ [(0 : Int)].length = 1 :=
  ⟨c1_commit_twice_per_betRequest.1 [] aaState ([0, 0], [(1, -1)]) (by decide),
   c1_commit_twice_per_betRequest.2 aaState aaSeat [0] (by decide) (by decide) (by decide)⟩

/-- C2 (counterexample): the claim says every committed amount is at most the
acting seat's stack.  At `quadState` (stack 120), the `betRequest` of
`src/src/Player.ts` commits 300 and then 340 — it never clamps to the
stack. -/
theorem c2_stack_clamp_counterexample :
    betRequest_A [] quadState = some ([300, 340], [(1, -1)])
    ∧ quadState.players.get? quadState.in_action = some quadSeat
    ∧ quadSeat.stack = 120
    ∧ ¬ (300 : Int) ≤ 120 := by decide

/-- C2 (amended): in the `betRequest` of part_000, with a nonnegative stack,
every amount passed to the commit callback is at most the acting seat's stack:
the raise branch commits `min(raiseAmount, stack)`, the call branch commits
`callAmount` clamped to `stack`, and the fold (and missing-hole-cards guard)
commits 0.  The `betRequest` of `src/src/Player.ts` has no such clamp. -/
theorem c2_p0_amount_le_stack (st : GameState) (p : PlayerData) (r : List Int)
    (hp : st.players.get? st.in_action = some p) (hs : 0 ≤ p.stack)
    (hr : betRequest_p0 st = some r) : ∀ a ∈ r, a ≤ p.stack := by
  simp only [betRequest_p0, hp, Option.some.injEq] at hr
  subst hr
  intro a ha
  rw [List.mem_append] at ha
  rcases ha with ha | ha
  · split at ha
    · rw [List.mem_singleton] at ha; omega
    · cases ha
  · rw [List.mem_singleton] at ha
    subst ha
    split
    · exact min_le_right _ _
    · split
      · split
        · omega
        · omega
      · exact hs

/-- C2 (witness): the stack-clamp theorem instantiated at `aaState`, whose
single committed amount 0 is at most the stack 1000. -/
theorem c2_p0_amount_le_stack_witness :
    betRequest_p0 aaState = some [0] ∧ (0 : Int) ≤ aaSeat.stack :=
  ⟨by decide,
   c2_p0_amount_le_stack aaState aaSeat [0] (by decide) (by decide) (by decide) 0 (by decide)⟩

/-- C3 (code bug): the banded scoring of the part_000 / part_001 evaluator is
not disjoint across categories: aces full of kings (a full house) scores
`600 + 14*10 + 13 = 753`, strictly above four twos (a four of a kind) at
`700 + 2 = 702`, contradicting the category order the bands are meant to
encode (the `*10` pair term lets the 600 band overrun the 700 band). -/
theorem c3_fullhouse_beats_quads_bug :
    evaluateHand_p0 fullHouseAAK [] = .val 753
    ∧ evaluateHand_p0 quadTwos [] = .val 702
    ∧ 702 < 753 := by decide

/-- C4 (counterexample): the claim says the evaluator scores a mixed-suit
`A-2-3-4-5` as a straight.  The `checkStraight` of `src/src/Player.ts` has no
wheel special case, so that variant's evaluator scores the wheel as a high
card (10), not as a straight (50 in that variant's bands). -/
theorem c4_wheel_counterexample :
    evaluateHand_A wheelHand [] = 10 ∧ (10 : Nat) ≠ 50 := by decide

/-- C4 (amended): the part_000 / part_001 evaluator scores the cards
`A-2-3-4-5` under every non-flush suit assignment as a straight with high card
5, i.e. exactly `400 + 5 = 405` — not the Ace-high straight score 414 and not
a high-card score; the `src/src/Player.ts` variant lacks the wheel case. -/
theorem c4_wheel_straight_p0 (s1 s2 s3 s4 s5 : Suit)
    (h : ¬ (s1 = s2 ∧ s2 = s3 ∧ s3 = s4 ∧ s4 = s5)) :
    evaluateHand_p0 [⟨.rA, s1⟩, ⟨.r2, s2⟩, ⟨.r3, s3⟩, ⟨.r4, s4⟩, ⟨.r5, s5⟩] [] = .val 405 := by
  revert h
  revert s1 s2 s3 s4 s5
  decide

/-- C4 (witness): the wheel theorem instantiated at a concrete mixed-suit
assignment. -/
theorem c4_wheel_straight_p0_witness :
    evaluateHand_p0 [⟨.rA, .spades⟩, ⟨.r2, .clubs⟩, ⟨.r3, .diamonds⟩,
      ⟨.r4, .hearts⟩, ⟨.r5, .spades⟩] [] = .val 405 :=
  c4_wheel_straight_p0 .spades .clubs .diamonds .hearts .spades (by decide)

/-- C5 (code bug): the claim says a suit occurring 6 or more times is still
detected as a flush.  In `src/src/Player.ts` (and part_002) `suitCount` is a
JS `Map` and the flush test reads `Object.values(suitCount)`, which is empty
for a `Map`, so a hand of seven hearts scores 10 (high card) there — no flush
is ever detected.  The part_000 evaluator, whose `suitCount` is a plain
object, scores the same seven hearts in the flush band (`500 + 13 = 513`). -/
theorem c5_flush_never_detected_bug :
    (sevenHearts.map Card.suit).count Suit.hearts = 7
    ∧ evaluateHand_A sevenHearts [] = 10
    ∧ evaluateHand_p0 sevenHearts [] = .val 513 := by decide

/-- C6 (counterexample): the claim says the decided action is monotone in hand
strength for fixed call amount, minimum raise and pot.  With call amount 10,
minimum raise 20 and pot 90 (pot odds 0.1 < 0.5), `postFlopStrategy` raises at
strength 30 (the bluff branch) but folds at strength 45: increasing strength
turns a raise into a fold. -/
theorem c6_monotonicity_counterexample :
    (30 : Int) < 45
    ∧ postFlopStrategy 30 10 20 90 = 30
    ∧ postFlopStrategy 45 10 20 90 = 0
    ∧ actionOf (postFlopStrategy 45 10 20 90) 10 < actionOf (postFlopStrategy 30 10 20 90) 10 := by
  have hodds : calculatePotOdds 10 90 < (1 : ℚ) / 2 := by
    unfold calculatePotOdds; norm_num
  have hb30 : postFlopStrategy 30 10 20 90 = 30 := by
    simp only [postFlopStrategy, evaluateBluffOpportunity, decide_eq_true hodds]
    norm_num
  have hb45 : postFlopStrategy 45 10 20 90 = 0 := by
    simp only [postFlopStrategy, evaluateBluffOpportunity]
    norm_num
  refine ⟨by norm_num, hb30, hb45, ?_⟩
  rw [hb30, hb45]
  decide

/-- C6 (amended): for a nonnegative call amount and positive minimum raise,
`preFlopStrategy`'s decided action (classified fold < call < raise by the
committed amount) is monotone in hand strength, and `postFlopStrategy`'s is
monotone whenever the pot odds are not below 0.5 — i.e. whenever the bluff
branch, the sole source of non-monotonicity, is disabled. -/
theorem c6_action_monotone_without_bluff (callAmount minimum_raise pot s1 s2 : Int)
    (hc : 0 ≤ callAmount) (hm : 0 < minimum_raise) (hs : s1 ≤ s2) :
    actionOf (preFlopStrategy s1 callAmount minimum_raise) callAmount
      ≤ actionOf (preFlopStrategy s2 callAmount minimum_raise) callAmount
    ∧ (¬ calculatePotOdds callAmount pot < (1 : ℚ) / 2 →
        actionOf (postFlopStrategy s1 callAmount minimum_raise pot) callAmount
          ≤ actionOf (postFlopStrategy s2 callAmount minimum_raise pot) callAmount) := by
  constructor
  · unfold preFlopStrategy actionOf
    split_ifs <;> omega
  · intro hodds
    simp only [postFlopStrategy, evaluateBluffOpportunity, decide_eq_false hodds,
      Bool.and_false, Bool.false_eq_true, if_false]
    unfold actionOf
    split_ifs <;> omega

/-- C6 (witness): the monotonicity theorem instantiated at call amount 10,
minimum raise 20, pot 10 (pot odds exactly 0.5, bluff disabled) and strengths
30 ≤ 60. -/
theorem c6_action_monotone_without_bluff_witness :
    actionOf (preFlopStrategy 30 10 20) 10 ≤ actionOf (preFlopStrategy 60 10 20) 10
    ∧ actionOf (postFlopStrategy 30 10 20 10) 10 ≤ actionOf (postFlopStrategy 60 10 20 10) 10 :=
  ⟨(c6_action_monotone_without_bluff 10 20 10 30 60 (by decide) (by decide) (by decide)).1,
   (c6_action_monotone_without_bluff 10 20 10 30 60 (by decide) (by decide) (by decide)).2
     (by unfold calculatePotOdds; norm_num)⟩

/-- C7 (counterexample): the claim says the pre-flop state with hole `A♠ A♥`,
`current_buy_in = 20`, `minimum_raise = 20`, bet 0, stack 1000 resolves to a
raise of at least 40.  The `betRequest` of part_000 commits exactly 0 there (a
pair of aces scores 114, below its continue threshold 300), and the
`betRequest` of `src/src/Player.ts` commits 0 twice (the pair scores 20, below
its threshold 40): both fold. -/
theorem c7_aa_preflop_counterexample :
    betRequest_p0 aaState = some [0]
    ∧ betRequest_A [] aaState = some ([0, 0], [(1, -1)])
    ∧ actionOf 0 20 = 0
    ∧ ¬ (20 + 20 : Int) ≤ 0 := by decide

/-- C7 (amended): only the `betRequest` of part_001 realizes the scenario: at
the same state it commits exactly 40 = `current_buy_in + minimum_raise`, which
is a raise (above the call amount 20) within the required band
`[40, 1000]`. -/
theorem c7_aa_preflop_raise_p1 :
    betRequest_p1 aaState = some [40]
    ∧ (20 + 20 : Int) ≤ 40 ∧ (40 : Int) ≤ 1000 ∧ actionOf 40 20 = 2 := by decide

/-- C8 (code bug): the claim (and the source's own comment, which says fold by
default) requires that with absent hole cards the only committed amount is 0.
The guard in part_000's `betRequest` lacks a `return`, so control falls
through: at `noHoleState` (board `K♠ K♥ K♦ 3♣ 9♠` scoring 313 on community
cards alone, `current_buy_in = 100`, stack 50) the callback receives 0 and
then 50 — a second, nonzero commitment. -/
theorem c8_missing_hole_cards_double_commit_bug :
    (noHoleState.players.get? noHoleState.in_action).map PlayerData.hole_cards = some none
    ∧ betRequest_p0 noHoleState = some [0, 50]
    ∧ (50 : Int) ≠ 0 := by decide

/-- C9: the aggression counter of an id starts from 0 when first observed
(`aggrVal` of an untracked id), gains exactly the number of rounds over any
sequence of rounds in which that id occurs exactly once per round and bets
(`bet > 0`), and each single observation with `bet = 0` subtracts exactly 1. -/
theorem c9_aggression_counter_steps (m : AggrMap) (i : Int) (rounds : List (List PlayerData))
    (h : ∀ r ∈ rounds, ∃ q, r.filter (fun p => p.id == i) = [q] ∧ 0 < q.bet) :
    aggrVal (rounds.foldl trackOpponentBehavior m) i = aggrVal m i + rounds.length
    ∧ ∀ (m2 : AggrMap) (p : PlayerData), p.bet = 0 →
        aggrVal (trackSeat m2 p) p.id = aggrVal m2 p.id - 1 := by
  refine ⟨track_rounds_aggressive rounds m i h, ?_⟩
  intro m2 p hb
  have hself := trackSeat_val_self m2 p
  rw [if_neg (by omega)] at hself
  omega

/-- C9 (witness): the counter theorem instantiated at two rounds of a betting
seat with id 7 starting from the empty map, and one non-betting observation
starting from counter 3. -/
theorem c9_aggression_counter_steps_witness :
    aggrVal ([[bettingSeat7], [bettingSeat7]].foldl trackOpponentBehavior []) 7
      = aggrVal ([] : AggrMap) 7 + ([[bettingSeat7], [bettingSeat7]] : List (List PlayerData)).length
    ∧ aggrVal (trackSeat [(7, 3)] checkingSeat7) 7 = aggrVal [(7, 3)] 7 - 1 := by
  have h := c9_aggression_counter_steps [] 7 [[bettingSeat7], [bettingSeat7]] (by
    intro r hr
    simp only [List.mem_cons, List.not_mem_nil, or_false] at hr
    rcases hr with rfl | rfl <;> exact ⟨bettingSeat7, by decide, by decide⟩)
  exact ⟨h.1, h.2 [(7, 3)] checkingSeat7 rfl⟩

/-- C10: the three regret counters start at 0 at construction and never
decrease: a raise or call adds `max 0 amount` to its own counter and any other
action string adds 1 to `fold`, so along every update sequence each counter is
nonnegative and each single update is non-decreasing in every component. -/
theorem c10_regret_nonneg_monotone :
    (∀ (updates : List (String × Int)),
      0 ≤ (regretRun updates).fold ∧ 0 ≤ (regretRun updates).call ∧ 0 ≤ (regretRun updates).raise)
    ∧ (∀ (s : RegretState) (a : String) (x : Int),
      s.fold ≤ (updateRegret s a x).fold ∧ s.call ≤ (updateRegret s a x).call
        ∧ s.raise ≤ (updateRegret s a x).raise)
    ∧ initRegret.fold = 0 ∧ initRegret.call = 0 ∧ initRegret.raise = 0 := by
  have step : ∀ (s : RegretState) (a : String) (x : Int),
      s.fold ≤ (updateRegret s a x).fold ∧ s.call ≤ (updateRegret s a x).call
        ∧ s.raise ≤ (updateRegret s a x).raise := by
    intro s a x
    unfold updateRegret
    split_ifs <;> simp
  refine ⟨?_, step, rfl, rfl, rfl⟩
  intro updates
  suffices hgen : ∀ (s : RegretState), 0 ≤ s.fold → 0 ≤ s.call → 0 ≤ s.raise →
      0 ≤ (updates.foldl (fun s u => updateRegret s u.1 u.2) s).fold
      ∧ 0 ≤ (updates.foldl (fun s u => updateRegret s u.1 u.2) s).call
      ∧ 0 ≤ (updates.foldl (fun s u => updateRegret s u.1 u.2) s).raise by
    exact hgen initRegret le_rfl le_rfl le_rfl
  induction updates with
  | nil => intro s h1 h2 h3; exact ⟨h1, h2, h3⟩
  | cons u rest ih =>
    intro s h1 h2 h3
    simp only [List.foldl_cons]
    obtain ⟨k1, k2, k3⟩ := step s u.1 u.2
    exact ih (updateRegret s u.1 u.2) (by omega) (by omega) (by omega)
